import Mathlib

/-!
Shallow embedding of the range-request module of oakserver/commons
(`src/range_fsfile.bench.ts`, second embedded copy of `range.ts`,
lines 561-1278 of the packed source file).

JavaScript strings are modelled as `List Char`, JavaScript byte buffers
(`Uint8Array` / `ArrayBuffer`) as `List Nat`, and JavaScript numbers in
the resolver as `JSNum` (an integer or `NaN`, since `parseInt` can
produce `NaN` and `NaN` propagates through arithmetic and makes every
comparison false).  External builtins that the module merely calls
(`new Date(v).getTime()`, `calculate` from `@std/http/etag`) are
parameters of the embedding, mirroring the spec's "opaque black box"
treatment of these collaborators.
-/

namespace RangeModule

/-- A JavaScript number as used by the resolver: either a proper integer
or `NaN`.  (All numbers reached by the resolver on integer-valued inputs
are integers; `NaN` arises from `parseInt` on non-numeric text.) -/
inductive JSNum where
  | nan : JSNum
  | num : Int → JSNum
deriving DecidableEq, Repr

/-- JS `<`: any comparison involving `NaN` is false. -/
def JSNum.lt : JSNum → JSNum → Bool
  | .num a, .num b => decide (a < b)
  | _, _ => false

/-- JS `>`: any comparison involving `NaN` is false. -/
def JSNum.gt : JSNum → JSNum → Bool
  | .num a, .num b => decide (a > b)
  | _, _ => false

/-- JS `>=`: any comparison involving `NaN` is false. -/
def JSNum.ge : JSNum → JSNum → Bool
  | .num a, .num b => decide (a ≥ b)
  | _, _ => false

/-- JS subtraction: `NaN` propagates. -/
def JSNum.sub : JSNum → JSNum → JSNum
  | .num a, .num b => .num (a - b)
  | _, _ => .nan

/-- ASCII whitespace recognised by the `\s` regex class and by
`parseInt` (space, tab, LF, CR, FF, VT; the inputs in this development
are ASCII). -/
def jsWs (c : Char) : Bool :=
  c = ' ' || c = '\t' || c = '\n' || c = '\r' || c.toNat = 12 || c.toNat = 11

/-- Numeric value of a list of decimal digit characters. -/
def digitsNat (ds : List Char) : Nat :=
  ds.foldl (fun a c => 10 * a + (c.toNat - 48)) 0

/-- JS `parseInt(s, 10)`: skip leading whitespace, optional sign, then
the longest prefix of decimal digits; no digits means `NaN`.  `parseInt`
never throws, which is why the `try`/`catch` around it in `range` is
dead code. -/
def parseInt (cs0 : List Char) : JSNum :=
  let cs := cs0.dropWhile jsWs
  let sign : Int := if cs.head? = some '-' then -1 else 1
  let body := if cs.head? = some '-' ∨ cs.head? = some '+' then cs.tail else cs
  let ds := body.takeWhile Char.isDigit
  if ds.isEmpty then .nan else .num (sign * digitsNat ds)

/-- JS `String.prototype.split` with a single-character string
separator: split at every occurrence, keeping empty segments. -/
def splitOnChar (sep : Char) : List Char → List (List Char)
  | [] => [[]]
  | c :: rest =>
      match splitOnChar sep rest with
      | [] => [[]]
      | s :: ss => if c = sep then [] :: s :: ss else (c :: s) :: ss

/-- One attempt to match the separator regex `\s*,\s+` at the current
position: greedy whitespace, a comma, then at least one whitespace
character.  Returns the remainder after the match. -/
def matchSep (cs : List Char) : Option (List Char) :=
  let rest := cs.dropWhile jsWs
  if rest.head? = some ',' then
    let r2 := rest.tail
    if (r2.takeWhile jsWs).isEmpty then none else some (r2.dropWhile jsWs)
  else none

/-- Scanner for `rangesStr.split(/\s*,\s+/)`: leftmost matches of the
separator regex cut the string.  `fuel` bounds the recursion; it is
initialised to the string length, which suffices because every step
consumes at least one character. -/
def rSplitGo : Nat → List Char → List Char → List (List Char)
  | 0, cs, cur => [cur.reverse ++ cs]
  | _ + 1, [], cur => [cur.reverse]
  | fuel + 1, c :: rest, cur =>
      match matchSep (c :: rest) with
      | some rem => cur.reverse :: rSplitGo fuel rem []
      | none => rSplitGo fuel rest (c :: cur)

/-- `rangesStr.split(/\s*,\s+/)`. -/
def rSplit (cs : List Char) : List (List Char) := rSplitGo cs.length cs []

/-- Character class `[ !#-\x7E\x80-\xFF]` of the entity-tag regex
`ETAG_RE` (note `"` = 0x22 is excluded, so a quoted run can never
contain the closing quote). -/
def etagClassChar (c : Char) : Bool :=
  c = ' ' || c = '!' || (decide ('#' ≤ c) && decide (c ≤ '~')) ||
    (decide (0x80 ≤ c.toNat) && decide (c.toNat ≤ 0xFF))

/-- Match `"[class]+"` at the head of the list, returning the matched
characters.  Because the class excludes `"`, greedy matching needs no
backtracking. -/
def matchQuoted (cs : List Char) : Option (List Char) :=
  match cs with
  | '"' :: rest =>
      let run := rest.takeWhile etagClassChar
      if run.isEmpty then none
      else
        match rest.drop run.length with
        | '"' :: _ => some ('"' :: (run ++ ['"']))
        | _ => none
  | _ => none

/-- Match `(?:W\/)?"[class]+"` at the head of the list (greedy: the
`W/` alternative is preferred; if it fails the plain quoted form is
tried at the same position, which can only succeed when the head is a
quote). -/
def matchEtagAt (cs : List Char) : Option (List Char) :=
  match cs with
  | 'W' :: '/' :: rest =>
      match matchQuoted rest with
      | some m => some ('W' :: '/' :: m)
      | none => matchQuoted cs
  | _ => matchQuoted cs

/-- `ETAG_RE.exec(ifRange)`: leftmost match of
`(?:W\/)?"[ !#-\x7E\x80-\xFF]+"`, or `none`. -/
def etagFind : List Char → Option (List Char)
  | [] => none
  | c :: rest =>
      match matchEtagAt (c :: rest) with
      | some m => some m
      | none => etagFind rest

/-- `isModified(value, mtime)` from the source: parse the `If-Range`
value as a date (the builtin `new Date(value).getTime()` is the
`dateParse` parameter, `none` standing for an invalid date / `NaN`),
truncate `mtime` to whole seconds with JS `%` (truncating toward zero,
hence `Int.tmod`), and test strict `<`.  A `NaN` date makes the
comparison false. -/
def isModified (dateParse : List Char → Option Int) (value : List Char)
    (mtime : Int) : Bool :=
  match dateParse value with
  | none => false
  | some a => decide (a < mtime - mtime.tmod 1000)

/-- The three-way result of `range` (`RangeResult` in the source):
`ok ranges` is `{ok: true, ranges}` (with `none` for `ranges: null`),
`notOk` is `{ok: false, ranges: null}`.  Parsed ranges are pairs of JS
numbers because `NaN` can reach them. -/
inductive RangeResult where
  | ok : Option (List (JSNum × JSNum)) → RangeResult
  | notOk : RangeResult
deriving DecidableEq, Repr

/-- The per-spec parsing loop of `range`: for each comma-separated
spec, split on `-`, require exactly two pieces, compute `start`/`end`
per the three forms, and apply the bounds check
`start < 0 || start >= size || end < 0 || end >= size || start > end`
with JS `NaN` comparison semantics.  `none` is the early
`return {ok: false, ranges: null}`. -/
def parseRanges (size : Int) : List (List Char) → Option (List (JSNum × JSNum))
  | [] => some []
  | seg :: rest =>
      match splitOnChar '-' seg with
      | [startStr, endStr] =>
          let se : JSNum × JSNum :=
            if startStr.isEmpty then
              (((JSNum.num size).sub (parseInt endStr)).sub (.num 1),
                .num (size - 1))
            else if endStr.isEmpty then
              (parseInt startStr, .num (size - 1))
            else
              (parseInt startStr, parseInt endStr)
          let s := se.1
          let e := se.2
          if s.lt (.num 0) || s.ge (.num size) || e.lt (.num 0) ||
              e.ge (.num size) || s.gt e then
            none
          else
            (parseRanges size rest).map (fun rs => (s, e) :: rs)
      | _ => none

/-- Step 2 of `range`: inspect the `Range` header.  An absent or empty
header yields `{ok: true, ranges: null}`.  `value.split("=")` always
has a head (the unit); if there is no `=` at all, `rangesStr` is
`undefined` and `rangesStr.split(...)` throws a `TypeError`, modelled
as `Except.error`. -/
def rangeStep2 (rangeHeader : Option (List Char)) (size : Int) :
    Except String RangeResult :=
  match rangeHeader with
  | none => .ok (.ok none)
  | some value =>
      if value.isEmpty then .ok (.ok none)
      else
        match splitOnChar '=' value with
        | [] => .error "unreachable: split returns at least one segment"
        | unit :: restParts =>
            if unit ≠ "bytes".data then .ok .notOk
            else
              match restParts.head? with
              | none => .error "TypeError: rangesStr is undefined"
              | some rangesStr =>
                  match parseRanges size (rSplit rangesStr) with
                  | none => .ok .notOk
                  | some rs => .ok (.ok (some rs))

/-- External collaborators and call-shape flags of `range`:
`dateParse` models `new Date(v).getTime()` (`none` = `NaN`),
`calcEtag` models `await calculate(entity)` (`none` = `undefined`),
`hasFileInfo` is whether the optional `fileInfo` argument was passed,
and `entityIsFileInfo` is `isFileInfo(entity)`. -/
structure ResolveEnv where
  dateParse : List Char → Option Int
  calcEtag : Option (List Char)
  hasFileInfo : Bool
  entityIsFileInfo : Bool

/-- The resolver `range(request, entity, fileInfo?)`.  `size` and
`mtime` are the entity metadata (`const { size } = fileInfo ?? entity`
and likewise `mtime`).  `Except.error` models a thrown exception
(the `assert` in the date branch, or the `TypeError` of
`rangeStep2`). -/
def rangeResolve (env : ResolveEnv) (ifRange rangeHeader : Option (List Char))
    (size : Int) (mtime : Option Int) : Except String RangeResult :=
  match ifRange with
  | none => rangeStep2 rangeHeader size
  | some v =>
      if v.isEmpty then rangeStep2 rangeHeader size
      else
        match etagFind v with
        | some m =>
            if !env.hasFileInfo || m.head? = some 'W' then .ok (.ok none)
            else if env.calcEtag ≠ some m then .ok (.ok none)
            else rangeStep2 rangeHeader size
        | none =>
            if !(env.hasFileInfo || env.entityIsFileInfo) then
              .error "AssertionError"
            else
              match mtime with
              | none => .ok (.ok none)
              | some m =>
                  if isModified env.dateParse v m then .ok (.ok none)
                  else rangeStep2 rangeHeader size

/-- An environment with trivial collaborators, for concrete runs that
never consult them (no `If-Range` header). -/
def envTrivial : ResolveEnv :=
  { dateParse := fun _ => none, calcEtag := none,
    hasFileInfo := false, entityIsFileInfo := true }

/-- A validated byte range (`ByteRange` in the source), both bounds
zero-indexed and inclusive.  The source field `end` is a Lean keyword,
hence `stop`. -/
structure ByteRange where
  start : Nat
  stop : Nat
deriving DecidableEq, Repr

/-- UTF-8 encoding of one character (the `TextEncoder` builtin). -/
def utf8Char (c : Char) : List Nat :=
  let n := c.toNat
  if n < 0x80 then [n]
  else if n < 0x800 then [0xC0 + n / 0x40, 0x80 + n % 0x40]
  else if n < 0x10000 then
    [0xE0 + n / 0x1000, 0x80 + n / 0x40 % 0x40, 0x80 + n % 0x40]
  else
    [0xF0 + n / 0x40000, 0x80 + n / 0x1000 % 0x40, 0x80 + n / 0x40 % 0x40,
      0x80 + n % 0x40]

/-- `encoder.encode(s)` as a list of byte values. -/
def utf8 (s : String) : List Nat := (s.data.map utf8Char).flatten

/-- The source kinds accepted by `responseRange` and
`MultiPartByteRangesStream` (`RangeBodyInit`), plus `invalid` for any
other value (which only the single-range path rejects).  A
`ReadableStream` is its sequence of chunks; a `Deno.FsFile` is its
content. -/
inductive RangeBody where
  | fsfile (data : List Nat)
  | stream (chunks : List (List Nat))
  | blob (data : List Nat) (btype : String)
  | bufferView (data : List Nat)
  | arrayBuffer (data : List Nat)
  | str (s : String)
  | invalid
deriving DecidableEq, Repr

/-- Options shared by `responseRange` and the multipart stream
(`ResponseRangeOptions` / `MultiPartByteRangeStreamOptions`); `none`
models an absent (`undefined`) option. -/
structure RangeOptions where
  autoClose : Option Bool
  boundary : Option String
  chunkSize : Option Nat
  type : Option String
deriving Repr

/-- All options absent. -/
def noOptions : RangeOptions :=
  { autoClose := none, boundary := none, chunkSize := none, type := none }

/-- The `#type` computation of the multipart constructor:
`type || (source instanceof Blob && source.type) || "application/octet-stream"`
(JS `||`, so an empty string falls through). -/
def mpType (otype : Option String) (source : RangeBody) : String :=
  let t1 := otype.getD ""
  if t1 ≠ "" then t1
  else
    match source with
    | .blob _ bt => if bt ≠ "" then bt else "application/octet-stream"
    | _ => "application/octet-stream"

/-- The per-part preamble string
`\r\n--{boundary}\r\nContent-Type: {type}\r\nContent-Range: {start}-{end}/{size}\r\n\r\n`
(note: no `bytes ` prefix inside the multipart part headers). -/
def preambleStr (boundary type : String) (r : ByteRange) (size : Nat) :
    String :=
  "\r\n--" ++ boundary ++ "\r\nContent-Type: " ++ type ++
    "\r\nContent-Range: " ++ Nat.repr r.start ++ "-" ++ Nat.repr r.stop ++
    "/" ++ Nat.repr size ++ "\r\n\r\n"

/-- The trailing postscript `\r\n--{boundary}--\r\n`. -/
def postscriptStr (boundary : String) : String :=
  "\r\n--" ++ boundary ++ "--\r\n"

/-- `this.#contentLength`: reduce over the caller-supplied `ranges`
(original order), starting from the postscript byte length, adding each
part's measured preamble byte length plus `(end - start) + 1`.  Ranges
are validated, so `start ≤ stop` and Nat subtraction is exact. -/
def mpContentLength (source : RangeBody) (ranges : List ByteRange)
    (size : Nat) (options : RangeOptions) : Nat :=
  let boundary := options.boundary.getD "OAK-COMMONS-BOUNDARY"
  let type := mpType options.type source
  ranges.foldl
    (fun prev r =>
      prev + (utf8 (preambleStr boundary type r size)).length +
        (r.stop - r.start) + 1)
    (utf8 (postscriptStr boundary)).length

/-- `[...ranges].sort(({start: a}, {start: b}) => a - b)`: JS sort is
stable, so any stable sort ascending by `start` is a faithful model;
`List.insertionSort` with `≤` on `start` is stable. -/
def sortByStart (rs : List ByteRange) : List ByteRange :=
  rs.insertionSort (fun a b => a.start ≤ b.start)

/-- The normalised `this.#source` plus the mutable per-stream state
(`#seen`, `#previous`, and the unread suffix of a stream source).
`invalidS` stands for a stored unrecognised value, on which a later
`.read()` call fails at pull time, not at construction time. -/
inductive MPSourceState where
  | buffer (data : List Nat)
  | blobS (data : List Nat)
  | fsfileS (data : List Nat)
  | streamS (seen : Nat) (previous : Option (List Nat))
      (chunks : List (List Nat))
  | invalidS
deriving DecidableEq, Repr

/-- Constructor normalisation of the source: a buffer view is replaced
by its backing `ArrayBuffer`, a string is UTF-8-encoded, a stream is
turned into its reader; everything else (file, blob, `ArrayBuffer`, or
an unrecognised value) is stored as-is. -/
def normalizeSource : RangeBody → MPSourceState
  | .bufferView d => .buffer d
  | .arrayBuffer d => .buffer d
  | .str s => .buffer (utf8 s)
  | .stream cs => .streamS 0 none cs
  | .blob d _ => .blobS d
  | .fsfile d => .fsfileS d
  | .invalid => .invalidS

/-- One step of `processChunk` in the stream branch of `#readRange`:
given the part's `start` and `length` (`length = end - start` in the
source — one less than the part's byte count), the local `read`, the
cumulative `#seen`, and a chunk, return the emitted piece (if any) and
the updated `read`, `#seen`, and `#previous` assignment (`none` when
the branch did not assign it). -/
def processChunk (start length read seen : Nat) (chunk : List Nat) :
    Option (List Nat) × Nat × Nat × Option (List Nat) :=
  if seen + chunk.length ≥ start then
    let p1 := if seen < start then (chunk.drop (start - seen), start)
      else (chunk, seen)
    let chunk1 := p1.1
    let seen1 := p1.2
    let p2 :=
      if read + chunk1.length > length + 1 then
        (chunk1.take (length - read + 1), some (chunk1.drop (length - read + 1)))
      else (chunk1, none)
    let chunk2 := p2.1
    (some chunk2, read + chunk2.length, seen1 + chunk2.length, p2.2)
  else
    (none, read, seen + chunk.length, none)

/-- The `while (read < length)` loop of the stream branch: pop one
chunk per iteration from the reader (structural recursion on the chunk
list); an exhausted reader is the `done` case, which throws
`RangeError("Unable to read range.")`. -/
def streamLoop (start length : Nat) :
    List (List Nat) → Nat → Nat → Option (List Nat) → Option (List Nat) →
    Except String (Option (List Nat) × Nat × Option (List Nat) × List (List Nat))
  | chunks, read, seen, result, previous =>
      if read < length then
        match chunks with
        | [] => .error "RangeError: Unable to read range."
        | c :: rest =>
            match processChunk start length read seen c with
            | (res, read', seen', prev') =>
                streamLoop start length rest read' seen'
                  (match res with
                    | some piece => some (result.getD [] ++ piece)
                    | none => result)
                  (match prev' with | some p => some p | none => previous)
      else .ok (result, seen, previous, chunks)

/-- `file.read(buf)` loop of the top-level `readRange(file, range)`:
each iteration allocates a zero-filled buffer of `length - read` bytes,
reads `count = min(requested, available)` bytes at the current
position, and pushes the **whole** allocated buffer (so a short read
contributes zero padding and the concatenation can exceed `length`).
EOF (`count === null`) throws.  `fuel` bounds the loop; `length`
iterations suffice since each successful read advances by at least one
byte. -/
def fsReadLoop (data : List Nat) (length : Nat) :
    Nat → Nat → Nat → List Nat → Except String (List Nat)
  | 0, _, _, acc => .ok acc
  | fuel + 1, read, pos, acc =>
      if read < length then
        if pos ≥ data.length then .error "RangeError: Could not read to range end."
        else
          let req := length - read
          let avail := data.length - pos
          let count := min req avail
          let chunk := (data.drop pos).take count ++ List.replicate (req - count) 0
          fsReadLoop data length fuel (read + count) (pos + count) (acc ++ chunk)
      else .ok acc

/-- `readRange(file, {start, end})` for a `Deno.FsFile` source: seek to
`start` (modelled as always succeeding for an in-bounds file) and read
until `length = end - start + 1` bytes have been counted. -/
def fsReadRange (data : List Nat) (r : ByteRange) : Except String (List Nat) :=
  let length := r.stop - r.start + 1
  fsReadLoop data length length 0 r.start []

/-- `this.#readRange({start, end})` of `MultiPartByteRangesStream`:
dispatch on the stored source.  File: `readRange`.  Blob and
`ArrayBuffer`: `slice(start, end + 1)`.  Stream: consume the single
forward pass, first re-processing the carry-over `#previous`, then
looping while `read < length` with `length = end - start`; the final
`assert(result)` throws when nothing was collected.  An unrecognised
stored source reaches `.read()` and fails at pull time. -/
def mpReadRange (st : MPSourceState) (r : ByteRange) :
    Except String (List Nat × MPSourceState) :=
  match st with
  | .fsfileS data => (fsReadRange data r).map (fun bs => (bs, st))
  | .blobS data =>
      .ok ((data.drop r.start).take (r.stop + 1 - r.start), st)
  | .buffer data =>
      .ok ((data.drop r.start).take (r.stop + 1 - r.start), st)
  | .invalidS => .error "TypeError: this.#source.read is not a function"
  | .streamS seen previous chunks =>
      let length := r.stop - r.start
      let init : Option (List Nat) × Nat × Nat × Option (List Nat) :=
        match previous with
        | some chunk =>
            match processChunk r.start length 0 seen chunk with
            | (res, read', seen', prev') => (res, read', seen', prev')
        | none => (none, 0, seen, none)
      match init with
      | (result0, read0, seen0, prev0) =>
          match streamLoop r.start length chunks read0 seen0 result0 prev0 with
          | .error e => .error e
          | .ok (result, seen', prev', chunks') =>
              match result with
              | none => .error "AssertionError"
              | some bytes => .ok (bytes, .streamS seen' prev' chunks')

/-- The pull loop of `MultiPartByteRangesStream`, fully drained: one
part (`preamble ++ bytes`) per pending range in sorted order, then the
postscript. -/
def drainParts (boundary type : String) (size : Nat) :
    MPSourceState → List ByteRange → Except String (List Nat)
  | _, [] => .ok []
  | st, r :: rest => do
      let (bytes, st') ← mpReadRange st r
      let tail ← drainParts boundary type size st' rest
      .ok (utf8 (preambleStr boundary type r size) ++ bytes ++ tail)

/-- The full byte sequence produced by draining a
`MultiPartByteRangesStream (source, ranges, size, options)`. -/
def mpDrain (source : RangeBody) (ranges : List ByteRange) (size : Nat)
    (options : RangeOptions) : Except String (List Nat) :=
  let boundary := options.boundary.getD "OAK-COMMONS-BOUNDARY"
  let type := mpType options.type source
  (drainParts boundary type size (normalizeSource source)
      (sortByStart ranges)).map
    (fun body => body ++ utf8 (postscriptStr boundary))

/-- One `transform(chunk, controller)` call of
`RangeByteTransformStream`, with `length = end - start` fixed at
construction.  Returns the enqueued piece (if any), the updated `seen`
and `read`, and whether `controller.terminate()` was called
(`read >= length` after enqueueing). -/
def rbtsTransform (start length seen read : Nat) (chunk : List Nat) :
    Option (List Nat) × Nat × Nat × Bool :=
  if seen + chunk.length ≥ start then
    let p1 := if seen < start then (chunk.drop (start - seen), start)
      else (chunk, seen)
    let chunk1 := p1.1
    let seen1 := p1.2
    let chunk2 :=
      if read + chunk1.length > length + 1 then chunk1.take (length - read + 1)
      else chunk1
    (some chunk2, seen1 + chunk2.length, read + chunk2.length,
      decide (read + chunk2.length ≥ length))
  else
    (none, seen + chunk.length, read, false)

/-- The bytes emitted by piping a chunked source through
`new RangeByteTransformStream(range)`: fold the transform over the
chunks; after `terminate()` no further chunk is processed. -/
def rbtsRunFrom (start length : Nat) :
    List (List Nat) → Nat → Nat → List Nat
  | [], _, _ => []
  | c :: rest, seen, read =>
      match rbtsTransform start length seen read c with
      | (emitted, seen', read', term) =>
          emitted.getD [] ++
            (if term then [] else rbtsRunFrom start length rest seen' read')

/-- Drain of `source.pipeThrough(new RangeByteTransformStream(range))`
from the initial state `seen = 0`, `read = 0`. -/
def rbtsRun (r : ByteRange) (chunks : List (List Nat)) : List Nat :=
  rbtsRunFrom r.start (r.stop - r.start) chunks 0 0

/-- ASCII lower-casing, as the `Headers` builtin applies to header
names. -/
def asciiLower (s : String) : String :=
  ⟨s.data.map fun c =>
    if 'A' ≤ c ∧ c ≤ 'Z' then Char.ofNat (c.toNat + 32) else c⟩

/-- The `Headers` builtin, modelled as a case-insensitive partial map
from names to values.  An abstract `HeadersMap` stands for an
already-constructed `Headers` object (lookups use lower-cased names). -/
def HeadersMap : Type := String → Option String

/-- `headers.set(name, value)`. -/
def hdrSet (h : HeadersMap) (name value : String) : HeadersMap :=
  fun m => if m = asciiLower name then some value else h m

/-- `headers.get(name)`. -/
def hdrGet (h : HeadersMap) (name : String) : Option String :=
  h (asciiLower name)

/-- `headers.has(name)`. -/
def hdrHas (h : HeadersMap) (name : String) : Bool :=
  (hdrGet h name).isSome

/-- `contentRange(headers, range, size, type?)`: set `Accept-Ranges`,
`Content-Range` (`bytes {start}-{end}/{size}`), `Content-Length`
(`end - start + 1`), and `Content-Type` only when `type` is truthy
(non-empty) and no `Content-Type` is present yet. -/
def contentRange (headers : HeadersMap) (r : ByteRange) (size : Nat)
    (type : String) : HeadersMap :=
  let h1 := hdrSet headers "accept-ranges" "bytes"
  let h2 := hdrSet h1 "content-range"
    ("bytes " ++ Nat.repr r.start ++ "-" ++ Nat.repr r.stop ++ "/" ++
      Nat.repr size)
  let h3 := hdrSet h2 "content-length" (Nat.repr (r.stop - r.start + 1))
  if type ≠ "" ∧ ¬hdrHas h3 "content-type" then
    hdrSet h3 "content-type" type
  else h3

/-- `multiPartByteRanges(headers, {contentLength, boundary})`: set
`Content-Type` (overwriting) and `Content-Length`. -/
def multiPartByteRanges (headers : HeadersMap)
    (contentLength : Nat) (boundary : String) : HeadersMap :=
  let h1 := hdrSet headers "content-type"
    ("multipart/byteranges; boundary=" ++ boundary)
  hdrSet h1 "content-length" (Nat.repr contentLength)

/-- `ResponseInit`: only the headers matter to this module, since
`responseRange` overrides `status` and `statusText`. -/
structure RespInit where
  headers : HeadersMap

/-- `ResponseInit` with no headers. -/
def emptyInit : RespInit := { headers := fun _ => none }

/-- A thrown JS error: `RangeError` or `TypeError`. -/
inductive JsErr where
  | rangeError (msg : String)
  | typeError (msg : String)
deriving DecidableEq, Repr

/-- What the single-range path turned the body into (only the shape is
tracked; the bytes themselves are exercised through `mpDrain`,
`rbtsRun` and the `lrs` state machine). -/
inductive RespBodySrc where
  | limitedStream
  | rangeTransformed
  | blobSlice (data : List Nat)
  | bufferSlice (data : List Nat)
  | multipart
deriving DecidableEq, Repr

/-- The produced `Response`: status, status text, headers and the body
shape. -/
structure ResponseModel where
  status : Nat
  statusText : String
  headers : HeadersMap
  body : RespBodySrc

/-- `responseRange(body, size, ranges, init, options)`.  Zero ranges
throw a `RangeError` synchronously.  With exactly one range the body is
dispatched on its shape (an unrecognised shape throws a `TypeError`
synchronously) and `contentRange` fills the headers of a
`206 Partial Content` response; a `Blob` body overrides the content
type with its own `.type` and is sliced without one (so the slice's
type is empty and the `Response` constructor adds no header).  With
several ranges a `MultiPartByteRangesStream` is constructed — whose
constructor stores any unrecognised source without validating it — and
`multiPartByteRanges` fills the headers. -/
def responseRange (body : RangeBody) (size : Nat) (ranges : List ByteRange)
    (init : RespInit) (options : RangeOptions) :
    Except JsErr ResponseModel :=
  if ranges.length = 0 then
    .error (.rangeError "At least one range expected.")
  else
    match ranges with
    | [range] =>
        let type0 := options.type.getD "application/octet-stream"
        let dispatched : Except JsErr (RespBodySrc × String) :=
          match body with
          | .fsfile _ => .ok (.limitedStream, type0)
          | .stream _ => .ok (.rangeTransformed, type0)
          | .blob d bt =>
              .ok (.blobSlice ((d.drop range.start).take
                (range.stop + 1 - range.start)), bt)
          | .bufferView d =>
              .ok (.bufferSlice ((d.drop range.start).take
                (range.stop + 1 - range.start)), type0)
          | .arrayBuffer d =>
              .ok (.bufferSlice ((d.drop range.start).take
                (range.stop + 1 - range.start)), type0)
          | .str s =>
              .ok (.bufferSlice (((utf8 s).drop range.start).take
                (range.stop + 1 - range.start)), type0)
          | .invalid => .error (.typeError "Invalid body type.")
        match dispatched with
        | .error e => .error e
        | .ok (b, type) =>
            .ok { status := 206, statusText := "Partial Content",
                  headers := contentRange init.headers range size type,
                  body := b }
    | _ =>
        .ok { status := 206, statusText := "Partial Content",
              headers := multiPartByteRanges init.headers
                (mpContentLength body ranges size options)
                (options.boundary.getD "OAK-COMMONS-BOUNDARY"),
              body := .multipart }

/-- `res.status` of a `responseRange` result, `none` if it threw. -/
def respStatus : Except JsErr ResponseModel → Option Nat
  | .ok r => some r.status
  | .error _ => none

/-- `res.statusText` of a `responseRange` result, `none` if it threw. -/
def respStatusText : Except JsErr ResponseModel → Option String
  | .ok r => some r.statusText
  | .error _ => none

/-- `res.headers.get(name)` of a `responseRange` result, `none` if it
threw or the header is absent. -/
def respHeader (res : Except JsErr ResponseModel) (name : String) :
    Option String :=
  match res with
  | .ok r => hdrGet r.headers name
  | .error _ => none

/-- The `Deno.FsFile` handle: its content, current position, and
whether it has been closed. -/
structure FsFile where
  data : List Nat
  pos : Nat
  closed : Bool
deriving DecidableEq, Repr

/-- The state of the `ReadableStream` built by
`asLimitedReadableStream(fsFile, range, options)` together with its
source file: `read` bytes delivered so far, whether the controller has
closed or errored, and the resolved options. -/
structure LrsState where
  file : FsFile
  start : Nat
  length : Nat
  read : Nat
  autoClose : Bool
  chunkSize : Nat
  closedCtrl : Bool
  errored : Bool
deriving DecidableEq, Repr

/-- `DEFAULT_CHUNK_SIZE` (512 KiB). -/
def DEFAULT_CHUNK_SIZE : Nat := 524288

/-- Construction of the limited stream: resolve the options
(`autoClose` defaults to `true`, `chunkSize` to 512 KiB) and run the
`start(controller)` callback, which seeks to `range.start`
synchronously (an in-bounds seek always reports the requested
position). -/
def lrsInit (file : FsFile) (r : ByteRange) (options : RangeOptions) :
    LrsState :=
  { file := { file with pos := r.start },
    start := r.start,
    length := r.stop - r.start + 1,
    read := 0,
    autoClose := options.autoClose.getD true,
    chunkSize := options.chunkSize.getD DEFAULT_CHUNK_SIZE,
    closedCtrl := false,
    errored := false }

/-- One `pull(controller)` call: allocate
`min(length - read, chunkSize)` bytes, read from the file (EOF errors
the controller), enqueue the (possibly zero-padded) buffer, and when
`read >= length` close the controller and, if `autoClose`, close the
file.  A closed or errored stream pulls no more. -/
def lrsPull (st : LrsState) : LrsState × Option (List Nat) :=
  if st.closedCtrl || st.errored then (st, none)
  else
    let req := min (st.length - st.read) st.chunkSize
    if st.file.pos ≥ st.file.data.length then
      ({ st with errored := true }, none)
    else
      let avail := st.file.data.length - st.file.pos
      let count := min req avail
      let chunk := (st.file.data.drop st.file.pos).take count ++
        List.replicate (req - count) 0
      let read' := st.read + count
      let st' := { st with
        file := { st.file with pos := st.file.pos + count },
        read := read' }
      if read' ≥ st.length then
        (({ st' with
            closedCtrl := true,
            file := { st'.file with
              closed := st'.autoClose || st'.file.closed } }), some chunk)
      else (st', some chunk)

/-- `stream.cancel()` as seen by the underlying source: the
`ReadableStream` passed to the constructor defines **no** `cancel`
callback, so cancellation touches neither the file nor the options —
it only stops future pulls.  The source-state identity is the whole
content of this model. -/
def lrsCancel (st : LrsState) : LrsState := st

/-- `n` consecutive pulls by the consumer. -/
def lrsPulls (st : LrsState) : Nat → LrsState
  | 0 => st
  | n + 1 => lrsPulls (lrsPull st).1 n

/-- The value of a resolver run, discarding whether an exception was
thrown (`none`) — convenient for decidable comparisons. -/
def resValue : Except String RangeResult → Option RangeResult
  | .ok r => some r
  | .error _ => none

/-- The ten decimal digit characters. -/
def digitChars : List Char :=
  ['0', '1', '2', '3', '4', '5', '6', '7', '8', '9']

end RangeModule

namespace RangeModule

theorem digit_facts (c : Char) (h : c ∈ digitChars) :
    c.isDigit = true ∧ jsWs c = false ∧ c ≠ ',' ∧ c ≠ '-' ∧ c ≠ '+' ∧
      c ≠ '=' := by
  simp only [digitChars, List.mem_cons, List.mem_singleton,
    List.not_mem_nil, or_false] at h
  rcases h with rfl | rfl | rfl | rfl | rfl | rfl | rfl | rfl | rfl | rfl <;>
    exact ⟨by decide, by decide, by decide, by decide, by decide, by decide⟩

theorem splitOnChar_cons (sep c : Char) (rest : List Char) :
    splitOnChar sep (c :: rest) =
      match splitOnChar sep rest with
      | [] => [[]]
      | s :: ss => if c = sep then [] :: s :: ss else (c :: s) :: ss := rfl

theorem splitOnChar_ne_nil (sep : Char) (cs : List Char) :
    splitOnChar sep cs ≠ [] := by
  cases cs with
  | nil => simp [splitOnChar]
  | cons c rest =>
      rw [splitOnChar_cons]
      rcases splitOnChar sep rest with _ | ⟨s, ss⟩
      · simp
      · by_cases hcs : c = sep <;> simp [hcs]

theorem splitOnChar_nosep (sep : Char) (cs : List Char)
    (h : ∀ c ∈ cs, c ≠ sep) : splitOnChar sep cs = [cs] := by
  induction cs with
  | nil => rfl
  | cons c rest ih =>
      have hc : c ≠ sep := h c (List.mem_cons_self ..)
      have hr := ih (fun x hx => h x (List.mem_cons_of_mem _ hx))
      rw [splitOnChar_cons, hr]
      simp [hc]

theorem splitOnChar_append_sep (sep : Char) (l1 l2 : List Char)
    (h : ∀ c ∈ l1, c ≠ sep) :
    splitOnChar sep (l1 ++ sep :: l2) = l1 :: splitOnChar sep l2 := by
  induction l1 with
  | nil =>
      rcases hs : splitOnChar sep l2 with _ | ⟨s, ss⟩
      · exact absurd hs (splitOnChar_ne_nil sep l2)
      · rw [List.nil_append, splitOnChar_cons, hs]
        simp
  | cons c cs ih =>
      have hc : c ≠ sep := h c (List.mem_cons_self ..)
      have hr := ih (fun x hx => h x (List.mem_cons_of_mem _ hx))
      rw [List.cons_append, splitOnChar_cons, hr]
      simp [hc]

theorem matchSep_none_of_no_comma (cs : List Char) (h : ',' ∉ cs) :
    matchSep cs = none := by
  unfold matchSep
  cases hd : cs.dropWhile jsWs with
  | nil => simp
  | cons c r2 =>
      have hmem : c ∈ cs := by
        have hc : c ∈ cs.dropWhile jsWs := by
          rw [hd]; exact List.mem_cons_self ..
        exact (List.dropWhile_sublist jsWs).mem hc
      have : c ≠ ',' := fun he => h (he ▸ hmem)
      simp [this]

theorem rSplitGo_no_comma (fuel : Nat) (cs cur : List Char)
    (h : ',' ∉ cs) : rSplitGo fuel cs cur = [cur.reverse ++ cs] := by
  induction fuel generalizing cs cur with
  | zero => rfl
  | succ n ih =>
      cases cs with
      | nil => simp [rSplitGo]
      | cons c rest =>
          have hm : matchSep (c :: rest) = none :=
            matchSep_none_of_no_comma _ h
          have hrest : ',' ∉ rest := fun hx => h (List.mem_cons_of_mem _ hx)
          simp [rSplitGo, hm, ih rest (c :: cur) hrest]

theorem rSplit_no_comma (cs : List Char) (h : ',' ∉ cs) :
    rSplit cs = [cs] := by
  simpa using rSplitGo_no_comma cs.length cs [] h

theorem parseInt_digits (ks : List Char) (hne : ks ≠ [])
    (hdig : ∀ c ∈ ks, c ∈ digitChars) :
    parseInt ks = .num (digitsNat ks) := by
  obtain ⟨c, rest, rfl⟩ := List.exists_cons_of_ne_nil hne
  have hc := digit_facts c (hdig c (List.mem_cons_self ..))
  have hdw : (c :: rest).dropWhile jsWs = c :: rest := by
    simp [List.dropWhile_cons, hc.2.1]
  have htw : (c :: rest).takeWhile Char.isDigit = c :: rest :=
    List.takeWhile_eq_self_iff.mpr
      (fun x hx => (digit_facts x (hdig x hx)).1)
  unfold parseInt
  simp only [hdw, List.head?_cons, htw]
  have hm : ¬ (some c = some '-') := by simp [hc.2.2.2.1]
  have hp : ¬ (some c = some '+') := by simp [hc.2.2.2.2.1]
  simp [hm, hp, htw, hc.1]

theorem parseRanges_suffix (size : Int) (k : Nat) (ks : List Char)
    (hne : ks ≠ []) (hdig : ∀ c ∈ ks, c ∈ digitChars)
    (hval : digitsNat ks = k) (hk0 : 0 < k) (hks : (k : Int) < size) :
    parseRanges size ['-' :: ks] =
      some [(JSNum.num (size - k - 1), JSNum.num (size - 1))] := by
  have hs2 : splitOnChar '-' ks = [ks] :=
    splitOnChar_nosep _ _ (fun c hc => (digit_facts c (hdig c hc)).2.2.2.1)
  have hsplit : splitOnChar '-' ('-' :: ks) = [[], ks] := by
    simp [splitOnChar, hs2]
  have hpi : parseInt ks = .num k := by
    rw [parseInt_digits ks hne hdig, hval]
  have h1 : ¬ (size - (k : Int) - 1 < 0) := by omega
  have h2 : ¬ (size - (k : Int) - 1 ≥ size) := by omega
  have h3 : ¬ (size - (1 : Int) < 0) := by omega
  have h4 : ¬ (size - (1 : Int) ≥ size) := by omega
  have h5 : ¬ (size - (k : Int) - 1 > size - 1) := by omega
  simp [parseRanges, hsplit, hpi, JSNum.sub, JSNum.lt, JSNum.ge, JSNum.gt,
    h1, h2, h3, h4, h5]

/-- C1 (amended): for every `size` and suffix length `k` written as a
decimal digit string `ks`, with `0 < k < size` (not `k ≤ size` as
claimed), resolving `Range: bytes=-{k}` with no `If-Range` header
against metadata `{size}` returns Satisfiable with the single range
`{start: size - k - 1, end: size - 1}` — one position to the left of
the claimed `start: size - k`. -/
theorem c1_suffix_range_amended (env : ResolveEnv) (mtime : Option Int)
    (size : Int) (k : Nat) (ks : List Char) (hne : ks ≠ [])
    (hdig : ∀ c ∈ ks, c ∈ digitChars) (hval : digitsNat ks = k)
    (hk0 : 0 < k) (hks : (k : Int) < size) :
    rangeResolve env none (some ("bytes=-".data ++ ks)) size mtime =
      .ok (.ok (some [(JSNum.num (size - k - 1), JSNum.num (size - 1))])) := by
  have hdata : "bytes=-".data ++ ks = "bytes".data ++ '=' :: ('-' :: ks) := by
    simp
  have hfree : ∀ c ∈ "bytes".data, c ≠ '=' := by decide
  have hnodash : ∀ c ∈ '-' :: ks, c ≠ '=' := by
    intro c hc
    rcases List.mem_cons.mp hc with rfl | hc
    · decide
    · exact (digit_facts c (hdig c hc)).2.2.2.2.2
  have hsplit : splitOnChar '=' ("bytes".data ++ '=' :: ('-' :: ks)) =
      "bytes".data :: [('-' :: ks)] := by
    rw [splitOnChar_append_sep _ _ _ hfree, splitOnChar_nosep _ _ hnodash]
  have hnocomma : ',' ∉ '-' :: ks := by
    intro hc
    rcases List.mem_cons.mp hc with he | hc
    · exact absurd he.symm (by decide)
    · exact (digit_facts ',' (hdig ',' hc)).2.2.1 rfl
  have hrs : rSplit ('-' :: ks) = [('-' :: ks)] := rSplit_no_comma _ hnocomma
  have hpr := parseRanges_suffix size k ks hne hdig hval hk0 hks
  simp only [rangeResolve, rangeStep2, hdata, hsplit, hrs, hpr]
  simp [rangeStep2, hsplit, hrs, hpr]

/-- C1 witness: at `size = 65000`, `k = 499` the amended claim applies
and yields the range `{start: 64500, end: 64999}` — matching the
repository's own test `range - range last bytes`. -/
theorem c1_suffix_range_amended_witness :
    ("499".data ≠ [] ∧ (∀ c ∈ "499".data, c ∈ digitChars) ∧
      digitsNat "499".data = 499 ∧ 0 < 499 ∧ (499 : Int) < 65000) ∧
    rangeResolve envTrivial none (some ("bytes=-".data ++ "499".data))
        65000 none =
      .ok (.ok (some [(JSNum.num 64500, JSNum.num 64999)])) := by
  refine ⟨⟨by decide, by decide, by decide, by decide, by decide⟩, ?_⟩
  have h := c1_suffix_range_amended envTrivial none 65000 499 "499".data
    (by decide) (by decide) (by decide) (by decide) (by decide)
  simpa using h

/-- C1 counterexample: at `size = 65000`, `k = 499` the resolver
returns the range `{start: 64500, end: 64999}`, not the claimed
`{start: size - k, end: size - 1} = {start: 64501, end: 64999}`. -/
theorem c1_counterexample :
    resValue (rangeResolve envTrivial none (some "bytes=-499".data)
        65000 none) =
      some (.ok (some [(JSNum.num 64500, JSNum.num 64999)])) ∧
    resValue (rangeResolve envTrivial none (some "bytes=-499".data)
        65000 none) ≠
      some (.ok (some [(JSNum.num (65000 - 499), JSNum.num 64999)])) := by
  constructor
  · decide
  · decide

/-- C2 (amended): when the `If-Range` value does not match the
entity-tag grammar and parses as a date `a`, the direction of the date
check is the reverse of the claim: a missing modification time, or a
date **strictly before** the modification time truncated to whole
seconds, invalidates the request to Satisfiable(none); a date **at or
after** the truncated modification time preserves the parsed ranges
(the resolution proceeds exactly as if no `If-Range` header were
present). -/
theorem c2_if_range_date_amended (env : ResolveEnv) (v : List Char)
    (a m : Int) (rangeHeader : Option (List Char)) (size : Int)
    (hv : v ≠ []) (hetag : etagFind v = none)
    (hdate : env.dateParse v = some a)
    (hassert : (env.hasFileInfo || env.entityIsFileInfo) = true) :
    rangeResolve env (some v) rangeHeader size none = .ok (.ok none) ∧
    (a < m - m.tmod 1000 →
      rangeResolve env (some v) rangeHeader size (some m) = .ok (.ok none)) ∧
    (m - m.tmod 1000 ≤ a →
      rangeResolve env (some v) rangeHeader size (some m) =
        rangeStep2 rangeHeader size) := by
  have hvE : v.isEmpty = false := by
    cases v with
    | nil => exact absurd rfl hv
    | cons c rest => rfl
  have hmod : isModified env.dateParse v m = decide (a < m - m.tmod 1000) := by
    simp [isModified, hdate]
  refine ⟨?_, ?_, ?_⟩
  · simp [rangeResolve, hvE, hetag, hassert]
  · intro h
    simp [rangeResolve, hvE, hetag, hassert, hmod, h]
  · intro h
    have hlt : ¬ (a < m - m.tmod 1000) := by omega
    simp [rangeResolve, hvE, hetag, hassert, hmod, hlt]

/-- C2 witness: a date value parsing to 1000 ms against a modification
time of 2000 ms (the date strictly predates the mtime) invalidates the
request to Satisfiable(none). -/
theorem c2_if_range_date_amended_witness :
    ("Thu, 01 Jan 1970 00:00:01 GMT".data ≠ ([] : List Char)) ∧
    etagFind "Thu, 01 Jan 1970 00:00:01 GMT".data = none ∧
    ((1000 : Int) < 2000 - (2000 : Int).tmod 1000) ∧
    rangeResolve
        { dateParse := fun w =>
            if w = "Thu, 01 Jan 1970 00:00:01 GMT".data then some 1000
            else none,
          calcEtag := none, hasFileInfo := true, entityIsFileInfo := false }
        (some "Thu, 01 Jan 1970 00:00:01 GMT".data)
        (some "bytes=0-0".data) 1 (some 2000) = .ok (.ok none) := by
  refine ⟨by decide, by decide, by decide, ?_⟩
  exact (c2_if_range_date_amended
    { dateParse := fun w =>
        if w = "Thu, 01 Jan 1970 00:00:01 GMT".data then some 1000
        else none,
      calcEtag := none, hasFileInfo := true, entityIsFileInfo := false }
    "Thu, 01 Jan 1970 00:00:01 GMT".data 1000 2000
    (some "bytes=0-0".data) 1 (by decide) (by decide) (by decide)
    (by decide)).2.1 (by decide)

/-- C2 counterexample: with an `If-Range` date of 1000 ms strictly
predating the modification time of 2000 ms, the claim predicts that the
parsed range `{0, 0}` is preserved, but the resolver invalidates the
request to Satisfiable(none). -/
theorem c2_counterexample :
    resValue (rangeResolve
        { dateParse := fun w =>
            if w = "Thu, 01 Jan 1970 00:00:01 GMT".data then some 1000
            else none,
          calcEtag := none, hasFileInfo := true, entityIsFileInfo := false }
        (some "Thu, 01 Jan 1970 00:00:01 GMT".data)
        (some "bytes=0-0".data) 1 (some 2000)) = some (.ok none) ∧
    resValue (rangeResolve
        { dateParse := fun w =>
            if w = "Thu, 01 Jan 1970 00:00:01 GMT".data then some 1000
            else none,
          calcEtag := none, hasFileInfo := true, entityIsFileInfo := false }
        (some "Thu, 01 Jan 1970 00:00:01 GMT".data)
        (some "bytes=0-0".data) 1 (some 2000)) ≠
      some (.ok (some [(JSNum.num 0, JSNum.num 0)])) := by
  constructor
  · decide
  · decide

/-- C3: evaluating the resolver at the malformed header
`Range: bytes=a-b` (non-numeric start and end) against size 100.
`parseInt` returns `NaN` without throwing, the dead `catch` never
fires, `NaN` passes every bound check, and the result is
`{ok: true, ranges: [{start: NaN, end: NaN}]}` — not the
`Unsatisfiable` the claim requires. -/
theorem c3_nan_range_eval :
    resValue (rangeResolve envTrivial none (some "bytes=a-b".data)
        100 none) = some (.ok (some [(JSNum.nan, JSNum.nan)])) ∧
    resValue (rangeResolve envTrivial none (some "bytes=a-b".data)
        100 none) ≠ some .notOk := by
  constructor
  · decide
  · decide

/-- C4: evaluating the multipart producer at a stream source chunked
as `[[7], [8]]` with the single validated range `{0, 1}` over size 2:
`contentLength` accounts for 2 body bytes (120 bytes total), but the
drained stream holds only 119 bytes — the stream path computes the
part length as `end - start` instead of `end - start + 1` and stops one
byte short when a chunk boundary falls exactly there. -/
theorem c4_content_length_mismatch_eval :
    ((mpDrain (.stream [[7], [8]]) [⟨0, 1⟩] 2 noOptions).map
        List.length).toOption = some 119 ∧
    mpContentLength (.stream [[7], [8]]) [⟨0, 1⟩] 2 noOptions = 120 := by
  constructor
  · decide
  · decide

/-- C4 supporting fact: for an in-memory buffer source the round-trip
invariant does hold at the same ranges — the mismatch is specific to
the stream path. -/
theorem c4_buffer_roundtrip_eval :
    ((mpDrain (.bufferView [7, 8]) [⟨0, 1⟩] 2 noOptions).map
        List.length).toOption =
      some (mpContentLength (.bufferView [7, 8]) [⟨0, 1⟩] 2 noOptions) := by
  decide

/-- C5: evaluating `RangeByteTransformStream` with range `{0, 1}` on a
source delivered as chunks `[7]` then `[8]`: the transform emits `[7]`
and terminates (its `read >= length` test uses `length = end - start`),
dropping the final byte instead of emitting the full two-byte range
`[7, 8]`. -/
theorem c5_last_byte_dropped_eval :
    rbtsRun ⟨0, 1⟩ [[7], [8]] = [7] ∧
    rbtsRun ⟨0, 1⟩ [[7], [8]] ≠ [[7], [8]].flatten := by
  constructor
  · decide
  · decide

theorem sortByStart_sorted (rs : List ByteRange) :
    (sortByStart rs).Sorted (fun a b => a.start ≤ b.start) := by
  haveI : IsTotal ByteRange (fun a b => a.start ≤ b.start) :=
    ⟨fun a b => Nat.le_total a.start b.start⟩
  haveI : IsTrans ByteRange (fun a b => a.start ≤ b.start) :=
    ⟨fun _ _ _ h1 h2 => Nat.le_trans h1 h2⟩
  exact List.sorted_insertionSort _ rs

theorem sortByStart_perm (rs : List ByteRange) :
    (sortByStart rs).Perm rs :=
  List.perm_insertionSort _ rs

theorem sorted_lt_of_sorted_le (l : List ByteRange)
    (hsor : l.Sorted (fun a b => a.start ≤ b.start))
    (hnd : (l.map ByteRange.start).Nodup) :
    l.Sorted (fun a b => a.start < b.start) := by
  have hne : l.Pairwise (fun a b => a.start ≠ b.start) :=
    List.pairwise_map.mp hnd
  exact (hsor.and hne).imp (fun h => lt_of_le_of_ne h.1 h.2)

theorem sortByStart_eq_of_perm (rs rs' : List ByteRange)
    (hperm : rs.Perm rs') (hnd : (rs.map ByteRange.start).Nodup) :
    sortByStart rs = sortByStart rs' := by
  haveI : IsAntisymm ByteRange (fun a b => a.start < b.start) :=
    ⟨fun a b h h' => absurd h' (Nat.lt_asymm h)⟩
  have hp1 := sortByStart_perm rs
  have hp2 := sortByStart_perm rs'
  have hps : (sortByStart rs).Perm (sortByStart rs') :=
    hp1.trans (hperm.trans hp2.symm)
  have hnd1 : ((sortByStart rs).map ByteRange.start).Nodup :=
    ((hp1.map ByteRange.start).nodup_iff).mpr hnd
  have hnd' : (rs'.map ByteRange.start).Nodup :=
    ((hperm.map ByteRange.start).nodup_iff).mp hnd
  have hnd2 : ((sortByStart rs').map ByteRange.start).Nodup :=
    ((hp2.map ByteRange.start).nodup_iff).mpr hnd'
  exact List.eq_of_perm_of_sorted hps
    (sorted_lt_of_sorted_le _ (sortByStart_sorted rs) hnd1)
    (sorted_lt_of_sorted_le _ (sortByStart_sorted rs') hnd2)

/-- C6 (amended): `MultiPartByteRangesStream` always emits its parts
sorted ascending by `start`; and **provided no two ranges share the
same `start`**, the produced multipart body is identical under any
permutation of the caller-supplied range list.  (The sort is stable on
equal starts, so permuting two ranges with equal starts changes the
body.) -/
theorem c6_sorted_perm_amended (source : RangeBody)
    (ranges ranges' : List ByteRange) (size : Nat) (opts : RangeOptions)
    (hperm : ranges.Perm ranges')
    (hnd : (ranges.map ByteRange.start).Nodup) :
    (sortByStart ranges).Sorted (fun a b => a.start ≤ b.start) ∧
    mpDrain source ranges size opts = mpDrain source ranges' size opts := by
  refine ⟨sortByStart_sorted ranges, ?_⟩
  unfold mpDrain
  rw [sortByStart_eq_of_perm ranges ranges' hperm hnd]

/-- C6 witness: permuting two distinct-start ranges over a ten-byte
buffer yields a sorted emission and the identical multipart body. -/
theorem c6_sorted_perm_amended_witness :
    ([⟨5, 9⟩, ⟨0, 2⟩] : List ByteRange).Perm [⟨0, 2⟩, ⟨5, 9⟩] ∧
    (([⟨5, 9⟩, ⟨0, 2⟩] : List ByteRange).map ByteRange.start).Nodup ∧
    ((sortByStart [⟨5, 9⟩, ⟨0, 2⟩]).Sorted (fun a b => a.start ≤ b.start) ∧
      mpDrain (.bufferView [10, 11, 12, 13, 14, 15, 16, 17, 18, 19])
          [⟨5, 9⟩, ⟨0, 2⟩] 10 noOptions =
        mpDrain (.bufferView [10, 11, 12, 13, 14, 15, 16, 17, 18, 19])
          [⟨0, 2⟩, ⟨5, 9⟩] 10 noOptions) := by
  refine ⟨List.Perm.swap _ _ _, by decide, ?_⟩
  exact c6_sorted_perm_amended _ _ _ _ _ (List.Perm.swap _ _ _) (by decide)

/-- C6 counterexample: two ranges sharing `start = 0`, in the two
input orders, over the two-byte buffer `[7, 8]`: the stable sort keeps
the input order of equal starts, so the two drained multipart bodies
differ — the claim's "identical under any permutation" fails. -/
theorem c6_counterexample :
    decide ((mpDrain (.bufferView [7, 8]) [⟨0, 0⟩, ⟨0, 1⟩] 2
        noOptions).toOption =
      (mpDrain (.bufferView [7, 8]) [⟨0, 1⟩, ⟨0, 0⟩] 2
        noOptions).toOption) = false := by
  decide

/-- C7 (amended): `responseRange` throws synchronously a `RangeError`
on zero ranges, and a `TypeError` on an unrecognised body shape in the
single-range path; but the multi-range path performs **no** synchronous
body validation — it returns a normal 206 response for any body,
including an unrecognised one (the failure would only surface later,
inside the stream's pull). -/
theorem c7_throw_amended (body : RangeBody) (size : Nat)
    (ranges : List ByteRange) (init : RespInit) (options : RangeOptions) :
    (ranges = [] →
      responseRange body size ranges init options =
        .error (.rangeError "At least one range expected.")) ∧
    (∀ r, ranges = [r] → body = .invalid →
      responseRange body size ranges init options =
        .error (.typeError "Invalid body type.")) ∧
    (2 ≤ ranges.length →
      respStatus (responseRange body size ranges init options) =
        some 206) := by
  refine ⟨?_, ?_, ?_⟩
  · rintro rfl
    rfl
  · rintro r rfl rfl
    rfl
  · intro h
    match ranges, h with
    | a :: b :: rest, _ => rfl

/-- C7 witness: the three amended behaviours at concrete inputs. -/
theorem c7_throw_amended_witness :
    responseRange .invalid 2 [] emptyInit noOptions =
      .error (.rangeError "At least one range expected.") ∧
    responseRange .invalid 2 [⟨0, 0⟩] emptyInit noOptions =
      .error (.typeError "Invalid body type.") ∧
    respStatus (responseRange .invalid 2 [⟨0, 0⟩, ⟨1, 1⟩] emptyInit
      noOptions) = some 206 := by
  refine ⟨?_, ?_, ?_⟩
  · exact (c7_throw_amended .invalid 2 [] emptyInit noOptions).1 rfl
  · exact (c7_throw_amended .invalid 2 [⟨0, 0⟩] emptyInit noOptions).2.1
      ⟨0, 0⟩ rfl rfl
  · exact (c7_throw_amended .invalid 2 [⟨0, 0⟩, ⟨1, 1⟩] emptyInit
      noOptions).2.2 (by decide)

/-- C7 counterexample: calling `responseRange` with an unrecognised
body and **two** ranges does not throw — it returns a 206 response, so
the claimed synchronous type error in the multi-range path is false. -/
theorem c7_counterexample :
    respStatus (responseRange .invalid 2 [⟨0, 0⟩, ⟨1, 1⟩] emptyInit
      noOptions) = some 206 ∧
    (responseRange .invalid 2 [⟨0, 0⟩, ⟨1, 1⟩] emptyInit
      noOptions).toOption.isSome = true := by
  exact ⟨rfl, rfl⟩

theorem hdrGet_set_same (h : HeadersMap) (n v m : String)
    (hm : asciiLower m = asciiLower n) :
    hdrGet (hdrSet h n v) m = some v := by
  unfold hdrGet hdrSet
  rw [if_pos hm]

theorem hdrGet_set_other (h : HeadersMap) (n v m : String)
    (hm : asciiLower m ≠ asciiLower n) :
    hdrGet (hdrSet h n v) m = hdrGet h m := by
  unfold hdrGet hdrSet
  rw [if_neg hm]

theorem contentRange_headers (h : HeadersMap) (r : ByteRange) (size : Nat)
    (t : String) :
    hdrGet (contentRange h r size t) "accept-ranges" = some "bytes" ∧
    hdrGet (contentRange h r size t) "content-range" =
      some ("bytes " ++ Nat.repr r.start ++ "-" ++ Nat.repr r.stop ++ "/" ++
        Nat.repr size) ∧
    hdrGet (contentRange h r size t) "content-length" =
      some (Nat.repr (r.stop - r.start + 1)) ∧
    (hdrHas h "content-type" = true →
      hdrGet (contentRange h r size t) "content-type" =
        hdrGet h "content-type") := by
  simp only [contentRange]
  refine ⟨?_, ?_, ?_, ?_⟩
  · split
    · rw [hdrGet_set_other _ _ _ _ (by decide),
        hdrGet_set_other _ _ _ _ (by decide),
        hdrGet_set_other _ _ _ _ (by decide),
        hdrGet_set_same _ _ _ _ (by decide)]
    · rw [hdrGet_set_other _ _ _ _ (by decide),
        hdrGet_set_other _ _ _ _ (by decide),
        hdrGet_set_same _ _ _ _ (by decide)]
  · split
    · rw [hdrGet_set_other _ _ _ _ (by decide),
        hdrGet_set_other _ _ _ _ (by decide),
        hdrGet_set_same _ _ _ _ (by decide)]
    · rw [hdrGet_set_other _ _ _ _ (by decide),
        hdrGet_set_same _ _ _ _ (by decide)]
  · split
    · rw [hdrGet_set_other _ _ _ _ (by decide),
        hdrGet_set_same _ _ _ _ (by decide)]
    · rw [hdrGet_set_same _ _ _ _ (by decide)]
  · intro hhas
    split
    · next hcond =>
        exfalso
        apply hcond.2
        rw [hdrHas, hdrGet_set_other _ _ _ _ (by decide),
          hdrGet_set_other _ _ _ _ (by decide),
          hdrGet_set_other _ _ _ _ (by decide)]
        exact hhas
    · rw [hdrGet_set_other _ _ _ _ (by decide),
        hdrGet_set_other _ _ _ _ (by decide),
        hdrGet_set_other _ _ _ _ (by decide)]

/-- C8: for exactly one validated range and any recognised body shape,
`responseRange` produces status 206 with text "Partial Content",
`Content-Range: bytes {start}-{end}/{size}`, `Accept-Ranges: bytes`,
`Content-Length: {end - start + 1}`, and leaves any `Content-Type`
already present on the supplied headers untouched (the type is set
only when absent). -/
theorem c8_single_range_response (body : RangeBody) (size : Nat)
    (r : ByteRange) (init : RespInit) (options : RangeOptions)
    (hb : body ≠ .invalid) (_hr : r.start ≤ r.stop) :
    respStatus (responseRange body size [r] init options) = some 206 ∧
    respStatusText (responseRange body size [r] init options) =
      some "Partial Content" ∧
    respHeader (responseRange body size [r] init options) "content-range" =
      some ("bytes " ++ Nat.repr r.start ++ "-" ++ Nat.repr r.stop ++ "/" ++
        Nat.repr size) ∧
    respHeader (responseRange body size [r] init options) "accept-ranges" =
      some "bytes" ∧
    respHeader (responseRange body size [r] init options) "content-length" =
      some (Nat.repr (r.stop - r.start + 1)) ∧
    (hdrHas init.headers "content-type" = true →
      respHeader (responseRange body size [r] init options) "content-type" =
        hdrGet init.headers "content-type") := by
  cases body with
  | invalid => exact absurd rfl hb
  | fsfile d =>
      exact ⟨rfl, rfl, (contentRange_headers _ _ _ _).2.1,
        (contentRange_headers _ _ _ _).1,
        (contentRange_headers _ _ _ _).2.2.1,
        (contentRange_headers _ _ _ _).2.2.2⟩
  | stream cs =>
      exact ⟨rfl, rfl, (contentRange_headers _ _ _ _).2.1,
        (contentRange_headers _ _ _ _).1,
        (contentRange_headers _ _ _ _).2.2.1,
        (contentRange_headers _ _ _ _).2.2.2⟩
  | blob d bt =>
      exact ⟨rfl, rfl, (contentRange_headers _ _ _ _).2.1,
        (contentRange_headers _ _ _ _).1,
        (contentRange_headers _ _ _ _).2.2.1,
        (contentRange_headers _ _ _ _).2.2.2⟩
  | bufferView d =>
      exact ⟨rfl, rfl, (contentRange_headers _ _ _ _).2.1,
        (contentRange_headers _ _ _ _).1,
        (contentRange_headers _ _ _ _).2.2.1,
        (contentRange_headers _ _ _ _).2.2.2⟩
  | arrayBuffer d =>
      exact ⟨rfl, rfl, (contentRange_headers _ _ _ _).2.1,
        (contentRange_headers _ _ _ _).1,
        (contentRange_headers _ _ _ _).2.2.1,
        (contentRange_headers _ _ _ _).2.2.2⟩
  | str s =>
      exact ⟨rfl, rfl, (contentRange_headers _ _ _ _).2.1,
        (contentRange_headers _ _ _ _).1,
        (contentRange_headers _ _ _ _).2.2.1,
        (contentRange_headers _ _ _ _).2.2.2⟩

/-- C8 witness: a buffer body, the range `{1, 2}` of a four-byte
resource of size 4, and headers already carrying a `Content-Type`,
which survives unchanged. -/
theorem c8_single_range_response_witness :
    ((RangeBody.bufferView [1, 2, 3, 4]) ≠ RangeBody.invalid ∧
      (1 : Nat) ≤ 2) ∧
    respStatus (responseRange (.bufferView [1, 2, 3, 4]) 4 [⟨1, 2⟩]
      { headers := fun m =>
          if m = "content-type" then some "image/png" else none }
      noOptions) = some 206 ∧
    respHeader (responseRange (.bufferView [1, 2, 3, 4]) 4 [⟨1, 2⟩]
      { headers := fun m =>
          if m = "content-type" then some "image/png" else none }
      noOptions) "content-range" = some "bytes 1-2/4" ∧
    respHeader (responseRange (.bufferView [1, 2, 3, 4]) 4 [⟨1, 2⟩]
      { headers := fun m =>
          if m = "content-type" then some "image/png" else none }
      noOptions) "content-length" = some "2" ∧
    respHeader (responseRange (.bufferView [1, 2, 3, 4]) 4 [⟨1, 2⟩]
      { headers := fun m =>
          if m = "content-type" then some "image/png" else none }
      noOptions) "content-type" = some "image/png" := by
  have h := c8_single_range_response (.bufferView [1, 2, 3, 4]) 4 ⟨1, 2⟩
    { headers := fun m =>
        if m = "content-type" then some "image/png" else none }
    noOptions (by decide) (by decide)
  refine ⟨⟨by decide, by decide⟩, h.1, ?_, ?_, ?_⟩
  · have := h.2.2.1
    simpa using this
  · have := h.2.2.2.2.1
    simpa using this
  · have := h.2.2.2.2.2 rfl
    simpa using this

theorem contentRange_ct_absent (h : HeadersMap) (r : ByteRange) (size : Nat)
    (t : String) (hh : hdrHas h "content-type" = false) :
    hdrGet (contentRange h r size t) "content-type" =
      if t = "" then none else some t := by
  have hnone : hdrGet h "content-type" = none := by
    rw [hdrHas] at hh
    exact Option.not_isSome_iff_eq_none.mp (by simp [hh])
  simp only [contentRange]
  split
  · next hcond =>
      rw [hdrGet_set_same _ _ _ _ (by decide), if_neg hcond.1]
  · next hcond =>
      rw [hdrGet_set_other _ _ _ _ (by decide),
        hdrGet_set_other _ _ _ _ (by decide),
        hdrGet_set_other _ _ _ _ (by decide), hnone]
      rcases Decidable.em (t = "") with ht | ht
      · rw [if_pos ht]
      · exfalso
        apply hcond
        refine ⟨ht, ?_⟩
        rw [hdrHas, hdrGet_set_other _ _ _ _ (by decide),
          hdrGet_set_other _ _ _ _ (by decide),
          hdrGet_set_other _ _ _ _ (by decide), hnone]
        simp

/-- C10: in the single-range path with a `Blob` body and no
`Content-Type` already on the supplied headers, the `Content-Type`
header comes from the blob's own `type` property — the caller's
`options.type` (quantified here and absent from the conclusion) is
overridden — and a blob whose type is the empty string yields no
`Content-Type` header at all. -/
theorem c10_blob_type (d : List Nat) (bt : String) (size : Nat)
    (r : ByteRange) (init : RespInit) (options : RangeOptions)
    (h : hdrHas init.headers "content-type" = false) :
    respHeader (responseRange (.blob d bt) size [r] init options)
        "content-type" = if bt = "" then none else some bt := by
  exact contentRange_ct_absent init.headers r size bt h

/-- C10 witness: a blob typed `image/png` with a caller-supplied
`options.type` of `text/html` still produces `Content-Type: image/png`;
a blob with the empty type produces no `Content-Type` at all. -/
theorem c10_blob_type_witness :
    hdrHas emptyInit.headers "content-type" = false ∧
    respHeader (responseRange (.blob [1, 2] "image/png") 2 [⟨0, 1⟩]
        emptyInit { noOptions with type := some "text/html" })
      "content-type" = some "image/png" ∧
    respHeader (responseRange (.blob [1, 2] "") 2 [⟨0, 1⟩] emptyInit
        noOptions) "content-type" = none := by
  refine ⟨rfl, ?_, ?_⟩
  · have := c10_blob_type [1, 2] "image/png" 2 ⟨0, 1⟩ emptyInit
      { noOptions with type := some "text/html" } rfl
    simpa using this
  · have := c10_blob_type [1, 2] "" 2 ⟨0, 1⟩ emptyInit noOptions rfl
    simpa using this

theorem lrsPull_autoClose (st : LrsState) :
    (lrsPull st).1.autoClose = st.autoClose ∧
    (lrsPull st).1.length = st.length := by
  simp only [lrsPull]
  split
  · exact ⟨rfl, rfl⟩
  · split
    · exact ⟨rfl, rfl⟩
    · split
      · exact ⟨rfl, rfl⟩
      · exact ⟨rfl, rfl⟩

theorem lrsPull_closed_inv (st : LrsState)
    (h : st.file.closed = true → st.autoClose = true ∧
      st.length ≤ st.read) :
    (lrsPull st).1.file.closed = true →
      (lrsPull st).1.autoClose = true ∧
        (lrsPull st).1.length ≤ (lrsPull st).1.read := by
  simp only [lrsPull]
  split
  · exact h
  · split
    · exact h
    · split
      · next hge =>
          intro hcl
          dsimp only at hcl hge ⊢
          rcases Bool.or_eq_true_iff.mp hcl with hac | hfc
          · exact ⟨hac, hge⟩
          · exact ⟨(h hfc).1, hge⟩
      · intro hcl
        dsimp only at hcl ⊢
        obtain ⟨ha, hle⟩ := h hcl
        exact ⟨ha, by omega⟩

theorem lrsPulls_inv (st0 : LrsState) (n : Nat)
    (h : st0.file.closed = true → st0.autoClose = true ∧
      st0.length ≤ st0.read) :
    ((lrsPulls st0 n).file.closed = true →
      (lrsPulls st0 n).autoClose = true ∧
        (lrsPulls st0 n).length ≤ (lrsPulls st0 n).read) ∧
    (lrsPulls st0 n).autoClose = st0.autoClose := by
  induction n generalizing st0 with
  | zero => exact ⟨h, rfl⟩
  | succ k ih =>
      have hstep := lrsPull_closed_inv st0 h
      have hmain := ih (lrsPull st0).1 hstep
      exact ⟨hmain.1, hmain.2.trans (lrsPull_autoClose st0).1⟩

/-- C9 (amended): the limited readable stream defines no `cancel`
callback, so cancelling mid-extraction never closes the source file —
regardless of `autoClose`; the file is closed only when the full range
has been read with `autoClose` left `true`.  With `autoClose: false`
the file always remains open for the caller, as claimed. -/
theorem c9_cancel_amended (file : FsFile) (r : ByteRange)
    (opts : RangeOptions) (n : Nat) (hopen : file.closed = false) :
    (lrsCancel (lrsPulls (lrsInit file r opts) n)).file.closed =
      (lrsPulls (lrsInit file r opts) n).file.closed ∧
    ((lrsPulls (lrsInit file r opts) n).read <
        (lrsPulls (lrsInit file r opts) n).length →
      (lrsPulls (lrsInit file r opts) n).file.closed = false) ∧
    (opts.autoClose = some false →
      (lrsPulls (lrsInit file r opts) n).file.closed = false) := by
  have h0 : (lrsInit file r opts).file.closed = true →
      (lrsInit file r opts).autoClose = true ∧
        (lrsInit file r opts).length ≤ (lrsInit file r opts).read := by
    intro hc
    exact absurd hc (by simp [lrsInit, hopen])
  have hinv := lrsPulls_inv (lrsInit file r opts) n h0
  refine ⟨rfl, ?_, ?_⟩
  · intro hlt
    by_contra hcl
    have hcl' : (lrsPulls (lrsInit file r opts) n).file.closed = true := by
      revert hcl
      cases (lrsPulls (lrsInit file r opts) n).file.closed <;> simp
    obtain ⟨_, hle⟩ := hinv.1 hcl'
    omega
  · intro hac
    by_contra hcl
    have hcl' : (lrsPulls (lrsInit file r opts) n).file.closed = true := by
      revert hcl
      cases (lrsPulls (lrsInit file r opts) n).file.closed <;> simp
    have hat := (hinv.1 hcl').1
    rw [hinv.2] at hat
    simp [lrsInit, hac] at hat

/-- C9 witness: a four-byte file, range `{0, 3}`, chunk size 1,
default (`true`) `autoClose`, one pull: cancelling changes nothing;
mid-extraction the file is open; and with `autoClose: false` it is
open too. -/
theorem c9_cancel_amended_witness :
    ({ data := [1, 2, 3, 4], pos := 0, closed := false } :
      FsFile).closed = false ∧
    ((lrsCancel (lrsPulls (lrsInit
          { data := [1, 2, 3, 4], pos := 0, closed := false } ⟨0, 3⟩
          { autoClose := none, boundary := none, chunkSize := some 1,
            type := none }) 1)).file.closed =
      (lrsPulls (lrsInit
          { data := [1, 2, 3, 4], pos := 0, closed := false } ⟨0, 3⟩
          { autoClose := none, boundary := none, chunkSize := some 1,
            type := none }) 1).file.closed ∧
    ((lrsPulls (lrsInit
          { data := [1, 2, 3, 4], pos := 0, closed := false } ⟨0, 3⟩
          { autoClose := none, boundary := none, chunkSize := some 1,
            type := none }) 1).read <
        (lrsPulls (lrsInit
          { data := [1, 2, 3, 4], pos := 0, closed := false } ⟨0, 3⟩
          { autoClose := none, boundary := none, chunkSize := some 1,
            type := none }) 1).length →
      (lrsPulls (lrsInit
          { data := [1, 2, 3, 4], pos := 0, closed := false } ⟨0, 3⟩
          { autoClose := none, boundary := none, chunkSize := some 1,
            type := none }) 1).file.closed = false) ∧
    (({ autoClose := none, boundary := none, chunkSize := some 1,
          type := none } : RangeOptions).autoClose = some false →
      (lrsPulls (lrsInit
          { data := [1, 2, 3, 4], pos := 0, closed := false } ⟨0, 3⟩
          { autoClose := none, boundary := none, chunkSize := some 1,
            type := none }) 1).file.closed = false)) := by
  exact ⟨rfl, c9_cancel_amended
    { data := [1, 2, 3, 4], pos := 0, closed := false } ⟨0, 3⟩
    { autoClose := none, boundary := none, chunkSize := some 1,
      type := none } 1 rfl⟩

/-- C9 counterexample: cancelling after one pull of a four-byte range
read with chunk size 1 and `autoClose` at its default `true` leaves the
file **open** (`closed = false`), while the claim says an auto-closing
source is left closed; the read is genuinely mid-extraction
(`read = 1 < 4 = length`). -/
theorem c9_counterexample :
    (lrsPulls (lrsInit { data := [1, 2, 3, 4], pos := 0, closed := false }
        ⟨0, 3⟩
        { autoClose := none, boundary := none, chunkSize := some 1,
          type := none }) 1).autoClose = true ∧
    (lrsPulls (lrsInit { data := [1, 2, 3, 4], pos := 0, closed := false }
        ⟨0, 3⟩
        { autoClose := none, boundary := none, chunkSize := some 1,
          type := none }) 1).read = 1 ∧
    (lrsPulls (lrsInit { data := [1, 2, 3, 4], pos := 0, closed := false }
        ⟨0, 3⟩
        { autoClose := none, boundary := none, chunkSize := some 1,
          type := none }) 1).length = 4 ∧
    (lrsCancel (lrsPulls (lrsInit
        { data := [1, 2, 3, 4], pos := 0, closed := false }
        ⟨0, 3⟩
        { autoClose := none, boundary := none, chunkSize := some 1,
          type := none }) 1)).file.closed = false := by
  refine ⟨?_, ?_, ?_, ?_⟩ <;> decide

end RangeModule
